import Mathlib

/-!
Shallow embedding of the checkmate approximate scheduling engine: the
LP-relaxation rounding strategies of
`checkmate/core/solvers/strategy_approx_lp.py` and the structural
checkpointing heuristics of `checkmate/core/solvers/strategy_chen.py`.
The external collaborators (the ILP relaxation solver, `solve_r_opt`,
`schedule_from_rs`, `gen_s_matrix_fixed_checkpoints`) are parameters of
the embedding: the theorems below quantify over their behaviour.
-/

namespace Checkmate

/-- Aggregate schedule statistics produced by the external
`schedule_from_rs` collaborator: total compute cost `cpu` and peak memory
`activation_ram`. -/
structure AuxData where
  cpu : ℕ
  activation_ram : ℕ
deriving DecidableEq

/-- A concrete schedule; its contents are opaque to the rounding engine,
which only threads it through. -/
abbrev Schedule := List ℕ

/-- Fractional stored matrix returned by the LP relaxation
(entries in the interval from 0 to 1). -/
abbrev FracS := List (List ℚ)

/-- Binary stored or recompute matrix. -/
abbrev BinS := List (List Bool)

/-- Elementwise binarization, embedding `(s >= threshold).astype(np.int)`
from line 64 of `strategy_approx_lp.py`. -/
def binarize (s : FracS) (threshold : ℚ) : BinS :=
  s.map (fun row => row.map (fun x => decide (threshold ≤ x)))

/-- Bernoulli rounding of `s` against a matrix `u` of uniform draws,
embedding `(np.random.rand(*s.shape) <= s).astype(np.int32)` from line 217
of `strategy_approx_lp.py`. -/
def bernoulli (u s : FracS) : BinS :=
  List.zipWith (fun ur sr => List.zipWith (fun a b => decide (a ≤ b)) ur sr) u s

/-- External collaborators of spec section 6, closed over the fixed graph
`g`: `solve_r_opt` derives the recompute matrix from a binary stored
matrix, and `schedule_from_rs` turns the pair `(R, S)` into a concrete
schedule with its aggregate statistics. -/
structure Collab where
  solve_r_opt : BinS → BinS
  schedule_from_rs : BinS → BinS → Schedule × AuxData

/-- Strategy tags used by the embedded solvers. -/
inductive SolveStrategy where
  | APPROX_DET_ROUND_LP_SWEEP
  | APPROX_RANDOMIZED_ROUND
  | CHEN_GREEDY
  | CHEN_GREEDY_NOAP
  | CHEN_SQRTN
  | CHEN_SQRTN_NOAP
deriving DecidableEq

/-- Result record returned by the rounding entry points. The field
`approx_deterministic_round_threshold` embeds the field of the same name
stored inside `ilp_aux_data` in the Python code (the other `ILPAuxData`
fields are solver diagnostics not touched by any claim). -/
structure ScheduledResult where
  solve_strategy : SolveStrategy
  solver_budget : ℕ
  feasible : Bool
  schedule : Option Schedule
  schedule_aux_data : Option AuxData
  approx_deterministic_round_threshold : Option ℚ
deriving DecidableEq

/-- Budget handed to the relaxation solver: `int(0.9 * budget)` from lines
44 and 194 of `strategy_approx_lp.py` (the comment there reads "hack to
get values under the budget"). On naturals this is the floor of nine
tenths of the budget. -/
def reducedBudget (budget : ℕ) : ℕ :=
  9 * budget / 10

/-- Default threshold sequence of the deterministic sweep,
`(0.1, 0.2, 0.3, 0.4, 0.5, 0.6, 0.7, 0.8, 0.9)`. -/
def defaultThresholds : List ℚ :=
  [1/10, 2/10, 3/10, 4/10, 5/10, 6/10, 7/10, 8/10, 9/10]

/-- One rounding candidate of the deterministic sweep: binarize at
`threshold`, derive `R` with `solve_r_opt`, cost the pair with
`schedule_from_rs` (lines 64 to 66 of `strategy_approx_lp.py`). -/
def sweepCandidate (co : Collab) (s : FracS) (threshold : ℚ) : Schedule × AuxData :=
  let sbin := binarize s threshold
  co.schedule_from_rs (co.solve_r_opt sbin) sbin

/-- Loop body of the threshold sweep (lines 63 to 72 of
`strategy_approx_lp.py`). The accumulator is the jointly updated state
`(schedule, aux_data, min_threshold)`, with `none` embedding
`aux_data is None`. The Python acceptance test
`(allow and aux_data is None) or (ram <= budget and (aux_data is None or cpu <= aux_data.cpu))`
is rendered by cases on the accumulator. -/
def sweepStep (budget : ℕ) (allow_return_infeasible_schedule : Bool) (co : Collab)
    (s : FracS) (acc : Option (Schedule × AuxData × ℚ)) (threshold : ℚ) :
    Option (Schedule × AuxData × ℚ) :=
  match acc with
  | none =>
      if allow_return_infeasible_schedule = true ∨
          (sweepCandidate co s threshold).2.activation_ram ≤ budget then
        some ((sweepCandidate co s threshold).1, (sweepCandidate co s threshold).2, threshold)
      else
        none
  | some best =>
      if (sweepCandidate co s threshold).2.activation_ram ≤ budget ∧
          (sweepCandidate co s threshold).2.cpu ≤ best.2.1.cpu then
        some ((sweepCandidate co s threshold).1, (sweepCandidate co s threshold).2, threshold)
      else
        some best

/-- Embedding of `solve_approx_lp_deterministic_sweep`. Here `lpSolve b` is
the outcome of building the external `ILPSolver` with budget argument `b`
and calling `solve()`: `none` embeds a raised `ValueError` (caught and
logged by the Python code, line 57). The offline parameters
(log files, gurobi options, `imposed_schedule`, `seed_s`) do not affect
the control flow modelled here. -/
def solve_approx_lp_deterministic_sweep (lpSolve : ℕ → Option FracS) (co : Collab)
    (budget : ℕ) (thresholds : List ℚ) (allow_return_infeasible_schedule : Bool) :
    ScheduledResult :=
  match lpSolve (reducedBudget budget) with
  | none =>
      { solve_strategy := SolveStrategy.APPROX_DET_ROUND_LP_SWEEP
        solver_budget := budget
        feasible := false
        schedule := none
        schedule_aux_data := none
        approx_deterministic_round_threshold := none }
  | some s =>
      let best := thresholds.foldl (sweepStep budget allow_return_infeasible_schedule co s) none
      { solve_strategy := SolveStrategy.APPROX_DET_ROUND_LP_SWEEP
        solver_budget := budget
        feasible := best.isSome
        schedule := best.map (fun x => x.1)
        schedule_aux_data := best.map (fun x => x.2.1)
        approx_deterministic_round_threshold := best.map (fun x => x.2.2) }

/-- Embedding of `solve_approx_lp_deterministic_05_threshold` (lines 122 to
149): it forwards every argument to the sweep with `thresholds=[0.5]`. -/
def solve_approx_lp_deterministic_05_threshold (lpSolve : ℕ → Option FracS)
    (co : Collab) (budget : ℕ) (allow_return_infeasible_schedule : Bool) :
    ScheduledResult :=
  solve_approx_lp_deterministic_sweep lpSolve co budget [1/2]
    allow_return_infeasible_schedule

/-- Embedding of `solve_approx_lp_deterministic_rand_threshold` (lines 93
to 119): `draws` stands for the `n_samples` values pulled from the global
numpy stream by `np.random.normal(0.5, 0.5)`; each is clamped to the unit
interval by `min(1.0, max(0.0, draw))` and the sweep is run over the
resulting list (`allow_return_infeasible_schedule` is not forwarded and so
keeps its default `False`). -/
def solve_approx_lp_deterministic_rand_threshold (lpSolve : ℕ → Option FracS)
    (co : Collab) (budget : ℕ) (draws : List ℚ) : ScheduledResult :=
  let thresholds := draws.map (fun x => min 1 (max 0 x))
  solve_approx_lp_deterministic_sweep lpSolve co budget thresholds false

/-- Per-round statistics lists of `solve_approx_lp_randomized`
(`rounding_cpus`, `rounding_activation_rams`, `rounding_in_budgets`). -/
structure RoundStats where
  cpu : List ℕ
  activation_ram : List ℕ
  in_budget : List Bool
deriving DecidableEq

/-- Bernoulli rounding candidate of round `i`, drawn against the uniform
matrix `rand i` taken from the (global) numpy stream (lines 217 to 219 of
`strategy_approx_lp.py`). -/
def randCandidate (co : Collab) (s : FracS) (rand : ℕ → FracS) (i : ℕ) :
    Schedule × AuxData :=
  let sbin := bernoulli (rand i) s
  co.schedule_from_rs (co.solve_r_opt sbin) sbin

/-- Loop body of `solve_approx_lp_randomized` (lines 216 to 226): the round
statistics are appended unconditionally, then `best_solution` is updated
when `ram <= budget and (best[2] is None or cpu <= best[0])`; `none`
embeds the initial `(inf, None, None)`. -/
def randRoundStep (budget : ℕ) (co : Collab) (s : FracS) (rand : ℕ → FracS)
    (st : Option (ℕ × Schedule × AuxData) × RoundStats) (i : ℕ) :
    Option (ℕ × Schedule × AuxData) × RoundStats :=
  (match st.1 with
   | none =>
       if (randCandidate co s rand i).2.activation_ram ≤ budget then
         some ((randCandidate co s rand i).2.cpu, (randCandidate co s rand i).1,
           (randCandidate co s rand i).2)
       else
         none
   | some b =>
       if (randCandidate co s rand i).2.activation_ram ≤ budget ∧
           (randCandidate co s rand i).2.cpu ≤ b.1 then
         some ((randCandidate co s rand i).2.cpu, (randCandidate co s rand i).1,
           (randCandidate co s rand i).2)
       else
         some b,
   { cpu := st.2.cpu ++ [(randCandidate co s rand i).2.cpu]
     activation_ram := st.2.activation_ram ++ [(randCandidate co s rand i).2.activation_ram]
     in_budget := st.2.in_budget ++
       [decide ((randCandidate co s rand i).2.activation_ram ≤ budget)] })

/-- Embedding of `solve_approx_lp_randomized` (lines 152 to 255). It always
returns the pair of the result and the rounding statistics; the Python
flag `return_rounds` merely selects whether the second component is
exposed. Note `feasible := lp_feasible` on line 235: in the success branch
the flag is `true` regardless of whether any round was within budget. -/
def solve_approx_lp_randomized (lpSolve : ℕ → Option FracS) (co : Collab)
    (budget : ℕ) (rand : ℕ → FracS) (num_rounds : ℕ) :
    ScheduledResult × RoundStats :=
  match lpSolve (reducedBudget budget) with
  | none =>
      ({ solve_strategy := SolveStrategy.APPROX_RANDOMIZED_ROUND
         solver_budget := budget
         feasible := false
         schedule := none
         schedule_aux_data := none
         approx_deterministic_round_threshold := none },
       { cpu := [], activation_ram := [], in_budget := [] })
  | some s =>
      let st := (List.range num_rounds).foldl (randRoundStep budget co s rand)
        (none, { cpu := [], activation_ram := [], in_budget := [] })
      ({ solve_strategy := SolveStrategy.APPROX_RANDOMIZED_ROUND
         solver_budget := budget
         feasible := true
         schedule := st.1.map (fun x => x.2.1)
         schedule_aux_data := st.1.map (fun x => x.2.2)
         approx_deterministic_round_threshold := none },
       st.2)

/-- Graph model fields consumed by the structural heuristics of
`strategy_chen.py` (the graph is an external, read-only collaborator). -/
structure DFGraph where
  cost_ram : ℕ → ℕ
  articulation_points : List ℕ
  v : List ℕ
  topological_order_fwd : List ℕ

/-- Loop body of `solve_chen_greedy` (lines 17 to 22 of
`strategy_chen.py`): the state is `(temp, x, checkpoints)`; `temp` first
accumulates the memory cost of the current vertex, then the vertex is
checkpointed when it is eligible and `temp > segment_mem_B`, resetting
`temp` to zero. -/
def chenGreedyStep (segment_mem_B : ℕ) (g : DFGraph) (C : List ℕ)
    (st : ℕ × ℕ × List ℕ) (vtx : ℕ) : ℕ × ℕ × List ℕ :=
  let temp := st.1 + g.cost_ram vtx
  if vtx ∈ C ∧ segment_mem_B < temp then
    (0, st.2.1 + g.cost_ram vtx, st.2.2 ++ [vtx])
  else
    (temp, st.2.1, st.2.2)

/-- Checkpoint set selected by `solve_chen_greedy` (lines 13 to 22); the
rest of that function hands the set to the external collaborators
`gen_s_matrix_fixed_checkpoints`, `solve_r_opt` and `schedule_from_rs`,
and always reports `feasible=True`. -/
def solve_chen_greedy_checkpoints (g : DFGraph) (segment_mem_B : ℕ)
    (use_actuation_points : Bool) : List ℕ :=
  let C := if use_actuation_points then g.articulation_points else g.v
  (g.topological_order_fwd.foldl (chenGreedyStep segment_mem_B g C) (0, 0, [])).2.2

/-- Selection of every `k`-th element (1-indexed), embedding the list
comprehension `[v for idx, v in enumerate(C) if (idx + 1) % k == 0]` from
line 40 of `strategy_chen.py`; `i` is the running enumeration index. -/
def everyKth (k : ℕ) : ℕ → List ℕ → List ℕ
  | _, [] => []
  | i, v :: rest =>
      if (i + 1) % k = 0 then v :: everyKth k (i + 1) rest
      else everyKth k (i + 1) rest

/-- Checkpoint list selected by `solve_chen_sqrtn` (lines 38 to 40) with
`k = int(math.sqrt(len(C)))`, embedded as `Nat.sqrt` (exact for the sizes
at stake). -/
def solve_chen_sqrtn_checkpoints (g : DFGraph) (use_actuation_points : Bool) :
    List ℕ :=
  let C := if use_actuation_points then g.articulation_points else g.v
  everyKth (Nat.sqrt C.length) 0 C

/-- Linear chain graph on `n` vertices, each of unit memory cost, in
forward topological order `0, 1, ..., n - 1`. -/
def chainGraph (n : ℕ) : DFGraph :=
  { cost_ram := fun _ => 1
    articulation_points := []
    v := List.range n
    topological_order_fwd := List.range n }

/-- Relaxation outcome used by the concrete instances below: a single-cell
fractional solution of value 0, whatever the budget. -/
def lpConst : ℕ → Option FracS := fun _ => some [[0]]

/-- Uniform draws that are all zero, so Bernoulli rounding stores every
cell whose fractional value is nonnegative. -/
def randZero : ℕ → FracS := fun _ => [[0]]

/-- Collaborator with a constant cost model: every candidate schedule gets
compute cost `c` and peak memory `r`. -/
def constCollab (c r : ℕ) : Collab :=
  { solve_r_opt := fun sbin => sbin
    schedule_from_rs := fun _ _ => ([0], { cpu := c, activation_ram := r }) }

/-- Collaborator distinguishing the two binarizations of the fractional
solution `[[0]]`: storing the cell is cheap to recompute but over memory,
while dropping it is within memory but costly. -/
def twoCandCollab : Collab :=
  { solve_r_opt := fun sbin => sbin
    schedule_from_rs := fun _ sbin =>
      if sbin = [[true]] then ([0], { cpu := 1, activation_ram := 10 })
      else ([1], { cpu := 5, activation_ram := 2 }) }

/-- Every best entry produced by a sweep step without the allow-infeasible
escape hatch is within budget, provided the incoming best entry was. -/
lemma sweepStep_ram_le {budget : ℕ} {co : Collab} {s : FracS}
    {acc : Option (Schedule × AuxData × ℚ)} {threshold : ℚ}
    (hacc : ∀ x, acc = some x → x.2.1.activation_ram ≤ budget) :
    ∀ x, sweepStep budget false co s acc threshold = some x →
      x.2.1.activation_ram ≤ budget := by
  intro x hx
  cases acc with
  | none =>
      simp only [sweepStep] at hx
      split at hx
      case isTrue h =>
        cases hx
        rcases h with h | h
        · exact absurd h (by simp)
        · exact h
      case isFalse h => exact absurd hx (by simp)
  | some best =>
      simp only [sweepStep] at hx
      split at hx
      case isTrue h =>
        cases hx
        exact h.1
      case isFalse h =>
        cases hx
        exact hacc _ rfl

/-- Fold version of `sweepStep_ram_le`: the best entry surviving the whole
sweep without the allow-infeasible escape hatch is within budget. -/
lemma sweepFold_ram_le {budget : ℕ} {co : Collab} {s : FracS} :
    ∀ (thresholds : List ℚ) (acc : Option (Schedule × AuxData × ℚ)),
      (∀ x, acc = some x → x.2.1.activation_ram ≤ budget) →
      ∀ x, thresholds.foldl (sweepStep budget false co s) acc = some x →
        x.2.1.activation_ram ≤ budget := by
  intro thresholds
  induction thresholds with
  | nil =>
      intro acc hacc x hx
      exact hacc x hx
  | cons τ rest ih =>
      intro acc hacc x hx
      simp only [List.foldl_cons] at hx
      exact ih (sweepStep budget false co s acc τ) (sweepStep_ram_le hacc) x hx

/-- If every threshold's candidate is over budget, the sweep without the
allow-infeasible escape hatch keeps no candidate at all. -/
lemma sweepFold_none {budget : ℕ} {co : Collab} {s : FracS} :
    ∀ thresholds : List ℚ,
      (∀ τ ∈ thresholds, budget < (sweepCandidate co s τ).2.activation_ram) →
      thresholds.foldl (sweepStep budget false co s) none = none := by
  intro thresholds
  induction thresholds with
  | nil =>
      intro _
      rfl
  | cons τ rest ih =>
      intro h
      have h1 : budget < (sweepCandidate co s τ).2.activation_ram := h τ (by simp)
      have hstep : sweepStep budget false co s none τ = none := by
        simp only [sweepStep]
        rw [if_neg]
        simp only [not_or]
        exact ⟨by simp, Nat.not_le.mpr h1⟩
      rw [List.foldl_cons, hstep]
      exact ih (fun τ' hτ' => h τ' (List.mem_cons_of_mem _ hτ'))

/-- Every best entry produced by a randomized-rounding step is within
budget, provided the incoming best entry was. -/
lemma randRoundStep_ram_le {budget : ℕ} {co : Collab} {s : FracS} {rand : ℕ → FracS}
    {st : Option (ℕ × Schedule × AuxData) × RoundStats} {i : ℕ}
    (hacc : ∀ x, st.1 = some x → x.2.2.activation_ram ≤ budget) :
    ∀ x, (randRoundStep budget co s rand st i).1 = some x →
      x.2.2.activation_ram ≤ budget := by
  intro x hx
  obtain ⟨b0, stats0⟩ := st
  cases b0 with
  | none =>
      simp only [randRoundStep] at hx
      split at hx
      case isTrue h =>
        cases hx
        exact h
      case isFalse h => exact absurd hx (by simp)
  | some b =>
      simp only [randRoundStep] at hx
      split at hx
      case isTrue h =>
        cases hx
        exact h.1
      case isFalse h =>
        cases hx
        exact hacc _ rfl

/-- Fold version of `randRoundStep_ram_le`. -/
lemma randFold_ram_le {budget : ℕ} {co : Collab} {s : FracS} {rand : ℕ → FracS} :
    ∀ (l : List ℕ) (st : Option (ℕ × Schedule × AuxData) × RoundStats),
      (∀ x, st.1 = some x → x.2.2.activation_ram ≤ budget) →
      ∀ x, (l.foldl (randRoundStep budget co s rand) st).1 = some x →
        x.2.2.activation_ram ≤ budget := by
  intro l
  induction l with
  | nil =>
      intro st hacc x hx
      exact hacc x hx
  | cons i rest ih =>
      intro st hacc x hx
      simp only [List.foldl_cons] at hx
      exact ih (randRoundStep budget co s rand st i) (randRoundStep_ram_le hacc) x hx

/-- If every round's candidate is over budget, the randomized rounding loop
keeps no best solution. -/
lemma randFold_none {budget : ℕ} {co : Collab} {s : FracS} {rand : ℕ → FracS} :
    ∀ (l : List ℕ) (st : Option (ℕ × Schedule × AuxData) × RoundStats),
      (∀ i ∈ l, budget < (randCandidate co s rand i).2.activation_ram) →
      st.1 = none →
      (l.foldl (randRoundStep budget co s rand) st).1 = none := by
  intro l
  induction l with
  | nil =>
      intro st _ hst
      exact hst
  | cons i rest ih =>
      intro st h hst
      have h1 : budget < (randCandidate co s rand i).2.activation_ram := h i (by simp)
      have hstep : (randRoundStep budget co s rand st i).1 = none := by
        simp only [randRoundStep, hst]
        rw [if_neg (Nat.not_le.mpr h1)]
      rw [List.foldl_cons]
      exact ih _ (fun i' hi' => h i' (List.mem_cons_of_mem _ hi')) hstep

/-- C9 (confirmed): `solve_approx_lp_deterministic_05_threshold` returns
exactly the result of `solve_approx_lp_deterministic_sweep` called with
`thresholds = [0.5]` and the same remaining arguments. -/
theorem det_05_threshold_is_sweep_single_05 (lpSolve : ℕ → Option FracS)
    (co : Collab) (budget : ℕ) (allow_return_infeasible_schedule : Bool) :
    solve_approx_lp_deterministic_05_threshold lpSolve co budget
        allow_return_infeasible_schedule
      = solve_approx_lp_deterministic_sweep lpSolve co budget [1/2]
          allow_return_infeasible_schedule := rfl

/-- Relaxation outcome embedding a solver that always raises. -/
def lpFail : ℕ → Option FracS := fun _ => none

/-- C5 (confirmed): when the relaxation solve raises (embedded as `none`),
both rounding entry points perform no rounding and return a result with
`feasible = False` and `schedule = None`; the exception is caught, so the
embedded functions are total and no fault propagates. -/
theorem solver_failure_infeasible_no_schedule (lpSolve : ℕ → Option FracS)
    (co : Collab) (budget : ℕ) (thresholds : List ℚ)
    (allow_return_infeasible_schedule : Bool) (rand : ℕ → FracS) (num_rounds : ℕ)
    (h : lpSolve (reducedBudget budget) = none) :
    (solve_approx_lp_deterministic_sweep lpSolve co budget thresholds
        allow_return_infeasible_schedule).feasible = false ∧
    (solve_approx_lp_deterministic_sweep lpSolve co budget thresholds
        allow_return_infeasible_schedule).schedule = none ∧
    (solve_approx_lp_deterministic_sweep lpSolve co budget thresholds
        allow_return_infeasible_schedule).schedule_aux_data = none ∧
    (solve_approx_lp_randomized lpSolve co budget rand num_rounds).1.feasible = false ∧
    (solve_approx_lp_randomized lpSolve co budget rand num_rounds).1.schedule = none ∧
    (solve_approx_lp_randomized lpSolve co budget rand num_rounds).1.schedule_aux_data
      = none := by
  simp [solve_approx_lp_deterministic_sweep, solve_approx_lp_randomized, h]

/-- Witness for C5 at a concrete failing solver. -/
theorem solver_failure_infeasible_no_schedule_witness :
    lpFail (reducedBudget 5) = none ∧
    ((solve_approx_lp_deterministic_sweep lpFail (constCollab 1 1) 5 defaultThresholds
        false).feasible = false ∧
      (solve_approx_lp_deterministic_sweep lpFail (constCollab 1 1) 5 defaultThresholds
        false).schedule = none ∧
      (solve_approx_lp_deterministic_sweep lpFail (constCollab 1 1) 5 defaultThresholds
        false).schedule_aux_data = none ∧
      (solve_approx_lp_randomized lpFail (constCollab 1 1) 5 randZero 1).1.feasible = false ∧
      (solve_approx_lp_randomized lpFail (constCollab 1 1) 5 randZero 1).1.schedule = none ∧
      (solve_approx_lp_randomized lpFail (constCollab 1 1) 5 randZero 1).1.schedule_aux_data
        = none) :=
  ⟨rfl, solver_failure_infeasible_no_schedule lpFail (constCollab 1 1) 5
    defaultThresholds false randZero 1 rfl⟩

/-- Relaxation solver defined only at budget 2, the reduced budget of the
nominal budget 3; every other budget fails. -/
def lpOnlyAt2 : ℕ → Option FracS := fun k => if k = 2 then some [[0]] else none

/-- C6 (confirmed): both rounding entry points consult the relaxation
solver only at the reduced budget `int(0.9 * budget)` (equal to
`9 * budget / 10` on naturals): two solvers agreeing there produce
identical results; and for every positive budget the reduced budget is
strictly below the nominal one. -/
theorem relaxation_uses_reduced_budget (lp1 lp2 : ℕ → Option FracS) (co : Collab)
    (budget : ℕ) (thresholds : List ℚ) (allow_return_infeasible_schedule : Bool)
    (rand : ℕ → FracS) (num_rounds : ℕ)
    (hagree : lp1 (reducedBudget budget) = lp2 (reducedBudget budget))
    (hpos : 0 < budget) :
    solve_approx_lp_deterministic_sweep lp1 co budget thresholds
        allow_return_infeasible_schedule
      = solve_approx_lp_deterministic_sweep lp2 co budget thresholds
          allow_return_infeasible_schedule ∧
    solve_approx_lp_randomized lp1 co budget rand num_rounds
      = solve_approx_lp_randomized lp2 co budget rand num_rounds ∧
    reducedBudget budget = 9 * budget / 10 ∧
    reducedBudget budget < budget := by
  refine ⟨?_, ?_, rfl, ?_⟩
  · unfold solve_approx_lp_deterministic_sweep
    rw [hagree]
  · unfold solve_approx_lp_randomized
    rw [hagree]
  · unfold reducedBudget
    exact Nat.div_lt_of_lt_mul (by omega)

/-- Witness for C6: `lpOnlyAt2` answers only at the reduced budget 2 of
the nominal budget 3 and there agrees with `lpConst`. -/
theorem relaxation_uses_reduced_budget_witness :
    lpOnlyAt2 (reducedBudget 3) = lpConst (reducedBudget 3) ∧ 0 < 3 ∧
    (solve_approx_lp_deterministic_sweep lpOnlyAt2 (constCollab 1 1) 3 defaultThresholds
        false
      = solve_approx_lp_deterministic_sweep lpConst (constCollab 1 1) 3 defaultThresholds
          false ∧
    solve_approx_lp_randomized lpOnlyAt2 (constCollab 1 1) 3 randZero 1
      = solve_approx_lp_randomized lpConst (constCollab 1 1) 3 randZero 1 ∧
    reducedBudget 3 = 9 * 3 / 10 ∧
    reducedBudget 3 < 3) :=
  ⟨rfl, by decide, relaxation_uses_reduced_budget lpOnlyAt2 lpConst (constCollab 1 1) 3
    defaultThresholds false randZero 1 rfl (by decide)⟩

/-- C3 (counterexample): on the 10-vertex unit-memory chain with
`segment_mem_B = 3` and eligibility unrestricted, the greedy rule of
`solve_chen_greedy` does not produce the checkpoint set 3, 6, 9 claimed by
the spec. -/
theorem chen_greedy_chain10_not_369 :
    (solve_chen_greedy_checkpoints (chainGraph 10) 3 false).toFinset
      ≠ ({3, 6, 9} : Finset ℕ) := by decide

/-- C3 (amended): on the 10-vertex unit-memory chain with
`segment_mem_B = 3` and eligibility unrestricted, the running total first
exceeds 3 at vertex 3 (total 4) and, after the reset, next at vertex 7
(total 4 again), so the selected checkpoints are exactly 3 and 7. -/
theorem chen_greedy_chain10_checkpoints :
    solve_chen_greedy_checkpoints (chainGraph 10) 3 false = [3, 7] := by decide

/-- C1 (counterexample): with `allow_return_infeasible_schedule=True`, a
sweep whose only candidate has peak memory 10 against budget 3 accepts it
and still reports `feasible = True` (line 76 computes
`lp_feasible and aux_data is not None`): the flag is not left truthful. -/
theorem sweep_allow_infeasible_flag_not_truthful :
    (solve_approx_lp_deterministic_sweep lpConst (constCollab 1 10) 3 [1/2]
        true).feasible = true ∧
    (solve_approx_lp_deterministic_sweep lpConst (constCollab 1 10) 3 [1/2]
        true).schedule_aux_data = some { cpu := 1, activation_ram := 10 } ∧
    ¬ (10 ≤ 3) := by decide

/-- C1 (amended): without the allow-infeasible escape hatch the flag is
truthful: a sweep result marked feasible carries aux data within budget,
and any best candidate returned by Bernoulli randomized rounding is within
budget. With `allow_return_infeasible_schedule=True` the flag is instead
`lp_feasible and aux_data is not None`, which can be `True` on an
over-budget schedule. -/
theorem feasible_flag_within_budget (lpSolve : ℕ → Option FracS) (co : Collab)
    (budget : ℕ) (thresholds : List ℚ) (rand : ℕ → FracS) (num_rounds : ℕ) :
    ((solve_approx_lp_deterministic_sweep lpSolve co budget thresholds
        false).feasible = true →
      ∃ a, (solve_approx_lp_deterministic_sweep lpSolve co budget thresholds
          false).schedule_aux_data = some a ∧ a.activation_ram ≤ budget) ∧
    (∀ a, (solve_approx_lp_randomized lpSolve co budget rand
        num_rounds).1.schedule_aux_data = some a → a.activation_ram ≤ budget) := by
  constructor
  · intro hfeas
    cases hlp : lpSolve (reducedBudget budget) with
    | none => simp [solve_approx_lp_deterministic_sweep, hlp] at hfeas
    | some s =>
        simp only [solve_approx_lp_deterministic_sweep, hlp,
          Option.isSome_iff_exists] at hfeas
        obtain ⟨x, hx⟩ := hfeas
        refine ⟨x.2.1, ?_, ?_⟩
        · simp only [solve_approx_lp_deterministic_sweep, hlp, hx, Option.map_some']
        · exact sweepFold_ram_le thresholds none (fun y hy => Option.noConfusion hy) x hx
  · intro a ha
    cases hlp : lpSolve (reducedBudget budget) with
    | none => simp [solve_approx_lp_randomized, hlp] at ha
    | some s =>
        simp only [solve_approx_lp_randomized, hlp] at ha
        rw [Option.map_eq_some'] at ha
        obtain ⟨x, hx, hxa⟩ := ha
        subst hxa
        exact randFold_ram_le (List.range num_rounds) _
          (fun y hy => Option.noConfusion hy) x hx

/-- Witness for (amended) C1: a feasible sweep with aux within budget and a
randomized best candidate within budget. -/
theorem feasible_flag_within_budget_witness :
    (solve_approx_lp_deterministic_sweep lpConst (constCollab 1 2) 3 [1/2]
        false).feasible = true ∧
    (∃ a, (solve_approx_lp_deterministic_sweep lpConst (constCollab 1 2) 3 [1/2]
        false).schedule_aux_data = some a ∧ a.activation_ram ≤ 3) ∧
    (solve_approx_lp_randomized lpConst (constCollab 1 2) 3 randZero
        1).1.schedule_aux_data = some { cpu := 1, activation_ram := 2 } ∧
    ({ cpu := 1, activation_ram := 2 } : AuxData).activation_ram ≤ 3 :=
  ⟨by decide,
   (feasible_flag_within_budget lpConst (constCollab 1 2) 3 [1/2] randZero 1).1
     (by decide),
   by decide,
   (feasible_flag_within_budget lpConst (constCollab 1 2) 3 [1/2] randZero 1).2
     { cpu := 1, activation_ram := 2 } (by decide)⟩

/-- C2 (counterexample): the Bernoulli randomized rounding whose single
round is over budget (see `in_budget = [false]`) returns no schedule but
reports `feasible = True` (line 235 sets `feasible=lp_feasible`), against
the claimed `feasible=False`. -/
theorem randomized_no_candidate_feasible_flag_true :
    (solve_approx_lp_randomized lpConst (constCollab 1 10) 3 randZero 1).1.feasible
      = true ∧
    (solve_approx_lp_randomized lpConst (constCollab 1 10) 3 randZero 1).1.schedule
      = none ∧
    (solve_approx_lp_randomized lpConst (constCollab 1 10) 3 randZero 1).2.in_budget
      = [false] := by decide

/-- C2 (amended): when the relaxation succeeds but no rounded candidate is
within budget and allow-infeasible is not set, the sweep-based strategies
return `feasible = False` with no schedule, while Bernoulli randomized
rounding returns no schedule but `feasible = True` (the relaxation
success flag). -/
theorem rounding_infeasible_reporting (lpSolve : ℕ → Option FracS) (co : Collab)
    (budget : ℕ) (thresholds : List ℚ) (rand : ℕ → FracS) (num_rounds : ℕ)
    (s : FracS) (hs : lpSolve (reducedBudget budget) = some s)
    (hsw : ∀ τ ∈ thresholds, budget < (sweepCandidate co s τ).2.activation_ram)
    (hrd : ∀ i ∈ List.range num_rounds,
      budget < (randCandidate co s rand i).2.activation_ram) :
    (solve_approx_lp_deterministic_sweep lpSolve co budget thresholds
        false).feasible = false ∧
    (solve_approx_lp_deterministic_sweep lpSolve co budget thresholds
        false).schedule = none ∧
    (solve_approx_lp_deterministic_sweep lpSolve co budget thresholds
        false).schedule_aux_data = none ∧
    (solve_approx_lp_randomized lpSolve co budget rand num_rounds).1.schedule = none ∧
    (solve_approx_lp_randomized lpSolve co budget rand
        num_rounds).1.schedule_aux_data = none ∧
    (solve_approx_lp_randomized lpSolve co budget rand num_rounds).1.feasible
      = true := by
  have h1 : thresholds.foldl (sweepStep budget false co s) none = none :=
    sweepFold_none thresholds hsw
  have h2 : ((List.range num_rounds).foldl (randRoundStep budget co s rand)
      (none, { cpu := [], activation_ram := [], in_budget := [] })).1 = none :=
    randFold_none (List.range num_rounds) _ hrd rfl
  simp [solve_approx_lp_deterministic_sweep, solve_approx_lp_randomized, hs, h1, h2]

/-- Witness for (amended) C2 at a concrete all-over-budget instance. -/
theorem rounding_infeasible_reporting_witness :
    lpConst (reducedBudget 3) = some [[0]] ∧
    (∀ τ ∈ ([1/2] : List ℚ),
      3 < (sweepCandidate (constCollab 1 10) [[0]] τ).2.activation_ram) ∧
    (∀ i ∈ List.range 1,
      3 < (randCandidate (constCollab 1 10) [[0]] randZero i).2.activation_ram) ∧
    ((solve_approx_lp_deterministic_sweep lpConst (constCollab 1 10) 3 [1/2]
        false).feasible = false ∧
      (solve_approx_lp_deterministic_sweep lpConst (constCollab 1 10) 3 [1/2]
        false).schedule = none ∧
      (solve_approx_lp_deterministic_sweep lpConst (constCollab 1 10) 3 [1/2]
        false).schedule_aux_data = none ∧
      (solve_approx_lp_randomized lpConst (constCollab 1 10) 3 randZero 1).1.schedule
        = none ∧
      (solve_approx_lp_randomized lpConst (constCollab 1 10) 3 randZero
        1).1.schedule_aux_data = none ∧
      (solve_approx_lp_randomized lpConst (constCollab 1 10) 3 randZero 1).1.feasible
        = true) :=
  ⟨rfl, by decide, by decide,
   rounding_infeasible_reporting lpConst (constCollab 1 10) 3 [1/2] randZero 1
     [[0]] rfl (by decide) (by decide)⟩

/-- C4 (counterexample): an ascending sweep over the two thresholds 0 and
1 in which both candidates are feasible with equal cpu 7: the sweep
reports the higher threshold 1, not the lowest threshold 0 required by the
claimed tie-breaking rule. -/
theorem sweep_tie_reports_highest_threshold :
    (solve_approx_lp_deterministic_sweep lpConst (constCollab 7 1) 1 [0, 1]
        false).approx_deterministic_round_threshold = some 1 ∧
    (solve_approx_lp_deterministic_sweep lpConst (constCollab 7 1) 1 [0, 1]
        false).approx_deterministic_round_threshold ≠ some 0 := by decide

/-- C4 (amended): the shared best-candidate rule compares with
`cpu <= best.cpu`, so a later feasible candidate of equal cpu replaces the
current best — in both the deterministic sweep and Bernoulli randomized
rounding equal-cost ties keep the latest-found candidate, and the sweep
reports the highest threshold achieving the best cpu. -/
theorem tie_keeps_latest_candidate (budget : ℕ)
    (allow_return_infeasible_schedule : Bool) (co : Collab) (s : FracS)
    (best : Schedule × AuxData × ℚ) (threshold : ℚ)
    (b : ℕ × Schedule × AuxData) (stats : RoundStats) (rand : ℕ → FracS) (i : ℕ)
    (h1 : (sweepCandidate co s threshold).2.activation_ram ≤ budget)
    (h2 : (sweepCandidate co s threshold).2.cpu = best.2.1.cpu)
    (h3 : (randCandidate co s rand i).2.activation_ram ≤ budget)
    (h4 : (randCandidate co s rand i).2.cpu = b.1) :
    sweepStep budget allow_return_infeasible_schedule co s (some best) threshold
      = some ((sweepCandidate co s threshold).1, (sweepCandidate co s threshold).2,
          threshold) ∧
    (randRoundStep budget co s rand (some b, stats) i).1
      = some ((randCandidate co s rand i).2.cpu, (randCandidate co s rand i).1,
          (randCandidate co s rand i).2) := by
  constructor
  · simp only [sweepStep]
    rw [if_pos ⟨h1, le_of_eq h2⟩]
  · simp only [randRoundStep]
    rw [if_pos ⟨h3, le_of_eq h4⟩]

/-- Witness for (amended) C4 at a concrete equal-cpu tie. -/
theorem tie_keeps_latest_candidate_witness :
    (sweepCandidate (constCollab 7 1) [[0]] (1/2)).2.activation_ram ≤ 1 ∧
    (sweepCandidate (constCollab 7 1) [[0]] (1/2)).2.cpu
      = (([0], { cpu := 7, activation_ram := 1 }, (1:ℚ)/10) :
          Schedule × AuxData × ℚ).2.1.cpu ∧
    (randCandidate (constCollab 7 1) [[0]] randZero 0).2.activation_ram ≤ 1 ∧
    (randCandidate (constCollab 7 1) [[0]] randZero 0).2.cpu
      = ((7, [0], { cpu := 7, activation_ram := 1 }) :
          ℕ × Schedule × AuxData).1 ∧
    (sweepStep 1 false (constCollab 7 1) [[0]]
        (some ([0], { cpu := 7, activation_ram := 1 }, 1/10)) (1/2)
      = some ((sweepCandidate (constCollab 7 1) [[0]] (1/2)).1,
          (sweepCandidate (constCollab 7 1) [[0]] (1/2)).2, 1/2) ∧
    (randRoundStep 1 (constCollab 7 1) [[0]] randZero
        (some (7, [0], { cpu := 7, activation_ram := 1 }),
          { cpu := [], activation_ram := [], in_budget := [] }) 0).1
      = some ((randCandidate (constCollab 7 1) [[0]] randZero 0).2.cpu,
          (randCandidate (constCollab 7 1) [[0]] randZero 0).1,
          (randCandidate (constCollab 7 1) [[0]] randZero 0).2)) :=
  ⟨by decide, by decide, by decide, by decide,
   tie_keeps_latest_candidate 1 false (constCollab 7 1) [[0]]
     ([0], { cpu := 7, activation_ram := 1 }, 1/10) (1/2)
     (7, [0], { cpu := 7, activation_ram := 1 })
     { cpu := [], activation_ram := [], in_budget := [] } randZero 0
     (by decide) (by decide) (by decide) (by decide)⟩

/-- C10 (confirmed): with `allow_return_infeasible_schedule=True` the first
threshold's candidate is accepted unconditionally; a later candidate
replaces the current best exactly when it is within budget with cpu at
most the best's; and on a concrete input the returned schedule is over
budget although a later threshold produced a within-budget candidate of
higher cpu. -/
theorem sweep_allow_infeasible_first_accept (budget : ℕ)
    (allow_return_infeasible_schedule : Bool) (co : Collab) (s : FracS)
    (best : Schedule × AuxData × ℚ) (threshold : ℚ) :
    sweepStep budget true co s none threshold
      = some ((sweepCandidate co s threshold).1, (sweepCandidate co s threshold).2,
          threshold) ∧
    ((sweepCandidate co s threshold).2.activation_ram ≤ budget ∧
        (sweepCandidate co s threshold).2.cpu ≤ best.2.1.cpu →
      sweepStep budget allow_return_infeasible_schedule co s (some best) threshold
        = some ((sweepCandidate co s threshold).1,
            (sweepCandidate co s threshold).2, threshold)) ∧
    (¬ ((sweepCandidate co s threshold).2.activation_ram ≤ budget ∧
        (sweepCandidate co s threshold).2.cpu ≤ best.2.1.cpu) →
      sweepStep budget allow_return_infeasible_schedule co s (some best) threshold
        = some best) ∧
    ((solve_approx_lp_deterministic_sweep lpConst twoCandCollab 3 [0, 1]
        true).schedule_aux_data = some { cpu := 1, activation_ram := 10 } ∧
      (solve_approx_lp_deterministic_sweep lpConst twoCandCollab 3 [0, 1]
        true).feasible = true ∧
      (sweepCandidate twoCandCollab [[0]] 1).2.activation_ram ≤ 3 ∧
      1 < (sweepCandidate twoCandCollab [[0]] 1).2.cpu) := by
  refine ⟨?_, ?_, ?_, by decide⟩
  · simp [sweepStep]
  · intro h
    simp only [sweepStep]
    rw [if_pos h]
  · intro h
    simp only [sweepStep]
    rw [if_neg h]

/-- Witness for C10: a concrete later candidate that is within budget and
cheap enough, and so replaces the best. -/
theorem sweep_allow_infeasible_first_accept_witness :
    ((sweepCandidate (constCollab 1 1) [[0]] (1/2)).2.activation_ram ≤ 3 ∧
      (sweepCandidate (constCollab 1 1) [[0]] (1/2)).2.cpu
        ≤ (([0], { cpu := 1, activation_ram := 1 }, (1:ℚ)/10) :
            Schedule × AuxData × ℚ).2.1.cpu) ∧
    sweepStep 3 false (constCollab 1 1) [[0]]
        (some ([0], { cpu := 1, activation_ram := 1 }, 1/10)) (1/2)
      = some ((sweepCandidate (constCollab 1 1) [[0]] (1/2)).1,
          (sweepCandidate (constCollab 1 1) [[0]] (1/2)).2, 1/2) :=
  ⟨by decide,
   (sweep_allow_infeasible_first_accept 3 false (constCollab 1 1) [[0]]
     ([0], { cpu := 1, activation_ram := 1 }, 1/10) (1/2)).2.1 (by decide)⟩

/-- Arithmetic helper for `everyKth_length`. -/
lemma sub_succ_add_one {A B : ℕ} (h : B + 1 ≤ A) : A - (B + 1) + 1 = A - B := by
  omega

/-- Length of the 1-indexed every-k-th selection: starting the enumeration
at index `i`, the selection keeps one element per multiple of `k` in the
interval from `i + 1` to `i + length`. -/
lemma everyKth_length {k : ℕ} :
    ∀ (l : List ℕ) (i : ℕ), (everyKth k i l).length = (i + l.length) / k - i / k := by
  intro l
  induction l with
  | nil =>
      intro i
      simp [everyKth, Nat.sub_self]
  | cons v rest ih =>
      intro i
      have harith : i + 1 + rest.length = i + (rest.length + 1) := by omega
      have hmono : (i + 1) / k ≤ (i + 1 + rest.length) / k :=
        Nat.div_le_div_right (Nat.le_add_right _ _)
      by_cases h : (i + 1) % k = 0
      · have hd : k ∣ i + 1 := Nat.dvd_of_mod_eq_zero h
        have h1 : (i + 1) / k = i / k + 1 := Nat.succ_div_of_dvd hd
        have h2 : i / k + 1 ≤ (i + 1 + rest.length) / k := h1 ▸ hmono
        calc (everyKth k i (v :: rest)).length
            = (everyKth k (i + 1) rest).length + 1 := by simp [everyKth, h]
          _ = (i + 1 + rest.length) / k - (i + 1) / k + 1 := by rw [ih]
          _ = (i + 1 + rest.length) / k - (i / k + 1) + 1 := by rw [h1]
          _ = (i + 1 + rest.length) / k - i / k := sub_succ_add_one h2
          _ = (i + (v :: rest).length) / k - i / k := by
              rw [List.length_cons, harith]
      · have hnd : ¬ k ∣ i + 1 := fun hd => h (Nat.mod_eq_zero_of_dvd hd)
        have h1 : (i + 1) / k = i / k := Nat.succ_div_of_not_dvd hnd
        calc (everyKth k i (v :: rest)).length
            = (everyKth k (i + 1) rest).length := by simp [everyKth, h]
          _ = (i + 1 + rest.length) / k - (i + 1) / k := ih (i + 1)
          _ = (i + (v :: rest).length) / k - i / k := by
              rw [h1, List.length_cons, harith]

/-- C7 (confirmed): for every graph whose eligible vertex set `C` is
nonempty, `solve_chen_sqrtn` selects every `k`-th eligible vertex
(1-indexed) with `k = floor(sqrt(|C|))`, so the number of checkpoints
selected is `floor(|C| / floor(sqrt(|C|)))`. -/
theorem chen_sqrtn_checkpoint_count (g : DFGraph) (use_actuation_points : Bool)
    (h : 1 ≤ (if use_actuation_points then g.articulation_points else g.v).length) :
    (solve_chen_sqrtn_checkpoints g use_actuation_points).length
      = (if use_actuation_points then g.articulation_points else g.v).length
        / Nat.sqrt (if use_actuation_points then g.articulation_points
            else g.v).length := by
  simp only [solve_chen_sqrtn_checkpoints]
  rw [everyKth_length]
  simp

/-- Witness for C7 at eligible sets of sizes 1, 4, 9, 16 and 100. -/
theorem chen_sqrtn_checkpoint_count_witness :
    (1 ≤ (if false then (chainGraph 1).articulation_points
        else (chainGraph 1).v).length ∧
      (solve_chen_sqrtn_checkpoints (chainGraph 1) false).length
        = (if false then (chainGraph 1).articulation_points
            else (chainGraph 1).v).length
          / Nat.sqrt (if false then (chainGraph 1).articulation_points
              else (chainGraph 1).v).length) ∧
    (1 ≤ (if false then (chainGraph 4).articulation_points
        else (chainGraph 4).v).length ∧
      (solve_chen_sqrtn_checkpoints (chainGraph 4) false).length
        = (if false then (chainGraph 4).articulation_points
            else (chainGraph 4).v).length
          / Nat.sqrt (if false then (chainGraph 4).articulation_points
              else (chainGraph 4).v).length) ∧
    (1 ≤ (if false then (chainGraph 9).articulation_points
        else (chainGraph 9).v).length ∧
      (solve_chen_sqrtn_checkpoints (chainGraph 9) false).length
        = (if false then (chainGraph 9).articulation_points
            else (chainGraph 9).v).length
          / Nat.sqrt (if false then (chainGraph 9).articulation_points
              else (chainGraph 9).v).length) ∧
    (1 ≤ (if false then (chainGraph 16).articulation_points
        else (chainGraph 16).v).length ∧
      (solve_chen_sqrtn_checkpoints (chainGraph 16) false).length
        = (if false then (chainGraph 16).articulation_points
            else (chainGraph 16).v).length
          / Nat.sqrt (if false then (chainGraph 16).articulation_points
              else (chainGraph 16).v).length) ∧
    (1 ≤ (if false then (chainGraph 100).articulation_points
        else (chainGraph 100).v).length ∧
      (solve_chen_sqrtn_checkpoints (chainGraph 100) false).length
        = (if false then (chainGraph 100).articulation_points
            else (chainGraph 100).v).length
          / Nat.sqrt (if false then (chainGraph 100).articulation_points
              else (chainGraph 100).v).length) :=
  ⟨⟨by decide, chen_sqrtn_checkpoint_count (chainGraph 1) false (by decide)⟩,
   ⟨by decide, chen_sqrtn_checkpoint_count (chainGraph 4) false (by decide)⟩,
   ⟨by decide, chen_sqrtn_checkpoint_count (chainGraph 9) false (by decide)⟩,
   ⟨by decide, chen_sqrtn_checkpoint_count (chainGraph 16) false (by decide)⟩,
   ⟨by decide, chen_sqrtn_checkpoint_count (chainGraph 100) false (by decide)⟩⟩

end Checkmate
